import Mathlib

/-!
Verification of the sandboxed code-execution, auto-grading and session
persistence core of `src/app.py` (cloud-based virtual laboratory).

The Python source is shallowly embedded: each relevant function of
`src/app.py` is translated into an executable Lean definition over explicit
data (lists of records standing for the CSV-backed pandas data frames,
`Option` for null/NaN cells, an inductive `RunResult` standing for the
outcome of the isolated `subprocess.run` call). Effectful parts (process
execution, file removal) are parametrised by their observable outcome so
the surrounding control flow of the Python code can be stated and proved.
-/

namespace VirtualLab

/-- Python `str.strip()` whitespace set restricted to ASCII: space, tab,
newline, carriage return, vertical tab, form feed. -/
def isPyWs (c : Char) : Bool :=
  c == ' ' || c == '\t' || c == '\n' || c == '\r' ||
  c == Char.ofNat 11 || c == Char.ofNat 12

/-- Python `s.strip()`: drop leading and trailing whitespace characters. -/
def pyStrip (s : String) : String :=
  String.mk (((s.toList.dropWhile isPyWs).reverse.dropWhile isPyWs).reverse)

/-- Outcome tags of the spec's `ExecutionResult` taxonomy
(`Success`, `RuntimeError`, `TimedOut`). -/
inductive Outcome where
  | Success
  | RuntimeError
  | TimedOut
deriving Repr, DecidableEq

/-- The spec's transient `ExecutionResult`: the selected result text together
with its outcome tag. -/
structure ExecutionResult where
  text : String
  outcome : Outcome
deriving Repr, DecidableEq

/-- Observable outcome of the isolated `subprocess.run(["python", temp_path],
capture_output=True, text=True, timeout=timeout)` call in
`execute_python_code` (src/app.py:34-37): either the child process completed
and produced the two captured streams, or `subprocess.TimeoutExpired` was
raised carrying whatever had been captured so far. -/
inductive RunResult where
  | completed (stdout stderr : String)
  | timedOut (pOut pErr : String)
deriving Repr, DecidableEq

/-- The sentinel text returned by `execute_python_code` on timeout
(src/app.py:42). -/
def timeout_message : String := "⏱️ Error: Code execution timed out!"

/-- The sentinel text returned when both captured streams strip to empty
(src/app.py:40). -/
def no_output_message : String := "(No output)"

/-- Default value of the `timeout` parameter of `execute_python_code`
(src/app.py:26). -/
def default_timeout : Nat := 5

/-- Output selection of `execute_python_code` (src/app.py:38-40):
`out = proc.stdout.strip()`, `err = proc.stderr.strip()`,
`return out if out else err if err else "(No output)"`.
The outcome tag records which branch was taken, following the spec's
taxonomy: stdout text is a `Success`, stderr-only text is a `RuntimeError`,
and the no-output sentinel is a `Success`. -/
def execute_select (stdout stderr : String) : ExecutionResult :=
  let out := pyStrip stdout
  let err := pyStrip stderr
  if out ≠ "" then ⟨out, .Success⟩
  else if err ≠ "" then ⟨err, .RuntimeError⟩
  else ⟨no_output_message, .Success⟩

/-- `execute_python_code` (src/app.py:26-47) as a function of the observable
run outcome: on completion the captured streams go through the output
selection policy; on `subprocess.TimeoutExpired` the captured text is
discarded and the timeout sentinel is returned as an ordinary value
(src/app.py:41-42) — the exception is caught, never propagated. -/
def execute_python_code (run : RunResult) : ExecutionResult :=
  match run with
  | .completed stdout stderr => execute_select stdout stderr
  | .timedOut _ _ => ⟨timeout_message, .TimedOut⟩

/-- Auto-grading of `start_lab` (src/app.py:161):
`score = 100 if str(output).strip() == str(lab["expected_output"]).strip()
else 0`. -/
def grade (result_text expected_output : String) : Nat :=
  if pyStrip result_text = pyStrip expected_output then 100 else 0

/-- One row of `data/lab_sessions.csv` (columns declared in src/app.py:83).
A missing `score` cell (pandas `NaN`, written by the save-only path) is
`none`. -/
structure Session where
  session_id : Nat
  user_id : Nat
  lab_id : Nat
  code : String
  output : String
  score : Option Nat
  timestamp : String
deriving Repr, DecidableEq

/-- The `score` argument of `save_session` as `start_lab` passes it: an
integer on the Run Code path (src/app.py:163), the empty string on the
Save Code Only path (src/app.py:167). -/
inductive ScoreArg where
  | int (n : Nat)
  | empty
deriving Repr, DecidableEq

/-- The stored score cell: `score if score != "" else None`
(src/app.py:176). -/
def ScoreArg.toStored : ScoreArg → Option Nat
  | .int n => some n
  | .empty => none

/-- `df["session_id"].max()` over the session frame, as a fold
(0 on an empty frame, where the Python code never evaluates it). -/
def max_session_id (df : List Session) : Nat :=
  (df.map Session.session_id).foldl max 0

/-- `new_id = int(df["session_id"].max()) + 1 if not df.empty else 1`
(src/app.py:173). -/
def next_session_id (df : List Session) : Nat :=
  if df.isEmpty then 1 else max_session_id df + 1

/-- `save_session` (src/app.py:171-179): compute the next identifier, append
one row with the current timestamp and the normalised score cell, persist. -/
def save_session (df : List Session) (user_id lab_id : Nat)
    (code output : String) (score : ScoreArg) (now : String) : List Session :=
  df ++ [⟨next_session_id df, user_id, lab_id, code, output,
          score.toStored, now⟩]

/-- One row of `data/users.csv` (columns declared in src/app.py:75). -/
structure User where
  id : Nat
  name : String
  email : String
  password_hash : String
  role : String
deriving Repr, DecidableEq

/-- One row of `data/labs.csv` (columns declared in src/app.py:79). -/
structure Lab where
  lab_id : Nat
  title : String
  description : String
  expected_output : String
deriving Repr, DecidableEq

/-- One left-join step of `DataFrame.merge(..., how="left")` for a single
left row: every right row matching the key predicate, or one all-NaN row
(`none`) when no right row matches — the left row is never dropped. -/
def leftMatches {α : Type} (p : α → Bool) (rows : List α) : List (Option α) :=
  match rows.filter p with
  | [] => [none]
  | rs => rs.map some

/-- The display columns `["session_id", "name", "email", "title", "output",
"score", "timestamp"]` of `merged_view` (src/app.py:203). Join fields that
did not resolve are NaN (`none`). -/
structure JoinedRow where
  session_id : Nat
  name : Option String
  email : Option String
  title : Option String
  output : String
  score : Option Nat
  timestamp : String
deriving Repr, DecidableEq

/-- The merged rows contributed by one session row: users left-merged on
`user_id = id`, then labs left-merged on `lab_id`, projected to the display
columns (src/app.py:201-203). -/
def rowsFor (users : List User) (labs : List Lab) (s : Session) :
    List JoinedRow :=
  (leftMatches (fun u => u.id == s.user_id) users).flatMap fun u? =>
    (leftMatches (fun l => l.lab_id == s.lab_id) labs).map fun l? =>
      ⟨s.session_id, u?.map User.name, u?.map User.email, l?.map Lab.title,
       s.output, s.score, s.timestamp⟩

/-- `merged_view` of `grading_dashboard` (src/app.py:201-203): the session
frame left-merged with users and labs, projected to the display columns.
No filtering of any kind is applied to the session rows. -/
def merged_view (users : List User) (labs : List Lab)
    (sessions : List Session) : List JoinedRow :=
  sessions.flatMap (rowsFor users labs)

/-- Descending insertion by a string key: the new row goes in front of the
first existing row whose key is not larger. -/
def insertDescBy {α : Type} (key : α → String) (r : α) :
    List α → List α
  | [] => [r]
  | x :: xs =>
      if key r < key x then x :: insertDescBy key r xs else r :: x :: xs

/-- `DataFrame.sort_values("timestamp", ascending=False)` (src/app.py:190,
src/app.py:208): order rows by key, largest (newest) first. -/
def sortDescBy {α : Type} (key : α → String) (l : List α) : List α :=
  l.foldr (insertDescBy key) []

/-- `my_sessions` (src/app.py:182-190): the session rows whose `user_id` is
the logged-in user, displayed sorted by timestamp, newest first. -/
def my_sessions (df : List Session) (uid : Nat) : List Session :=
  sortDescBy Session.timestamp (df.filter fun s => s.user_id == uid)

/-- The instructor review table as displayed (src/app.py:208): `merged_view`
sorted by timestamp, newest first. -/
def grading_table (users : List User) (labs : List Lab)
    (sessions : List Session) : List JoinedRow :=
  sortDescBy JoinedRow.timestamp (merged_view users labs sessions)

/-- The Update Score action of `grading_dashboard` (src/app.py:212-219):
if the entered identifier occurs in `merged_view["session_id"]`, set the
score cell of the session rows carrying that identifier and persist
(`Bool` result `true`, the success message); otherwise warn
"Invalid Session ID" and do not write (`false`), leaving the stored frame
untouched. -/
def update_score (users : List User) (labs : List Lab) (df : List Session)
    (sid : Nat) (new_score : Nat) : List Session × Bool :=
  if (merged_view users labs df).any (fun r => r.session_id == sid) then
    (df.map fun s =>
      if s.session_id == sid then { s with score := some new_score } else s,
     true)
  else
    (df, false)

/-- Outcome of the attempted `os.remove(temp_path)` in the `finally` block
(src/app.py:45): the removal either succeeds or raises. -/
inductive RemoveOutcome where
  | ok
  | fails
deriving Repr, DecidableEq

/-- The `subprocess.run` call (src/app.py:34-37) with its exception flow
explicit: completion yields the two captured streams; exceeding the timeout
raises `subprocess.TimeoutExpired`. -/
def run_subprocess (run : RunResult) : Except String (String × String) :=
  match run with
  | .completed stdout stderr => .ok (stdout, stderr)
  | .timedOut _ _ => .error "TimeoutExpired"

/-- `os.remove(temp_path)` (src/app.py:45) as an exception-throwing step. -/
def os_remove (rm : RemoveOutcome) : Except String Unit :=
  match rm with
  | .ok => .ok ()
  | .fails => .error "OSError"

/-- The `finally` block (src/app.py:43-47): attempt the removal and swallow
any exception it raises (`except Exception: pass`). Returns whether the
temporary file is gone afterwards; no exception ever escapes this block. -/
def cleanup (rm : RemoveOutcome) : Bool :=
  match os_remove rm with
  | .ok () => true
  | .error _ => false

/-- `execute_python_code` (src/app.py:26-47) with its exception flow and
file-system effect explicit: the try body runs the subprocess and selects
the output; `except subprocess.TimeoutExpired` converts the timeout into
the sentinel result; the `finally` block runs on every path. The value is
`.ok (result, removed)` when the call returns normally and `.error` if an
exception would propagate to the caller. -/
def execute_python_code_full (run : RunResult) (rm : RemoveOutcome) :
    Except String (ExecutionResult × Bool) :=
  let attempt : Except String ExecutionResult :=
    match run_subprocess run with
    | .ok (stdout, stderr) => .ok (execute_select stdout stderr)
    | .error e =>
        if e = "TimeoutExpired" then .ok ⟨timeout_message, .TimedOut⟩
        else .error e
  let removed := cleanup rm
  match attempt with
  | .ok r => .ok (r, removed)
  | .error e => .error e

/-- Characters `textwrap.dedent` counts as indentation: space and tab. -/
def isIndentChar (c : Char) : Bool := c == ' ' || c == '\t'

/-- `text.split('\n')`: split a character sequence at every newline; the
result always holds one (possibly empty) line more than there are newline
characters. -/
def splitOnNl : List Char → List (List Char)
  | [] => [[]]
  | c :: cs =>
      if c = '\n' then [] :: splitOnNl cs
      else
        match splitOnNl cs with
        | [] => [[c]]
        | line :: rest => (c :: line) :: rest

/-- `'\n'.join(lines)`: interleave the lines with newline characters. -/
def joinNl : List (List Char) → List Char
  | [] => []
  | [l] => l
  | l :: ls => l ++ '\n' :: joinNl ls

/-- A line matched by `_whitespace_only_re` (`^[ \t]+$`): nonempty and made
of indentation characters only. -/
def whitespaceOnlyLine (l : List Char) : Bool :=
  !l.isEmpty && l.all isIndentChar

/-- The leading run of indentation characters of a line, as captured by
`_leading_whitespace_re` (`(^[ \t]*)(?:[^ \t\n])`). -/
def leadingIndent (l : List Char) : List Char := l.takeWhile isIndentChar

/-- The margin-narrowing loop of `textwrap.dedent`: the longest shared
leading run of two indents. -/
def sharedStart : List Char → List Char → List Char
  | x :: xs, y :: ys => if x = y then x :: sharedStart xs ys else []
  | _, _ => []

/-- `textwrap.dedent` (Python standard library, applied in src/app.py:28):
blank out whitespace-only lines, compute the common leading-whitespace
margin over the lines that carry a non-indentation character, and strip the
margin from the front of every line that starts with it. -/
def dedent (text : String) : String :=
  let lines := (splitOnNl text.toList).map fun l =>
    if whitespaceOnlyLine l then [] else l
  let indents := (lines.filter fun l =>
    l.any fun c => !(isIndentChar c)).map leadingIndent
  let margin := match indents with
    | [] => []
    | i :: is => is.foldl sharedStart i
  let stripped := lines.map fun l =>
    if margin.isPrefixOf l then l.drop margin.length else l
  String.mk (joinNl stripped)

/-- The text materialised into the temporary file and handed to the child
interpreter (src/app.py:28-34): the submission after `textwrap.dedent`. -/
def executed_source (code : String) : String := dedent code

/-- The Run Code action of `start_lab` (src/app.py:158-164), the OS-level
run of the executed source abstracted as `runOf`: execute the dedented
submission, auto-grade the displayed output against the lab's expected
output, persist a session holding the original submission text, and return
the new store with the displayed output and score. -/
def run_code_action (runOf : String → RunResult) (df : List Session)
    (uid : Nat) (lab : Lab) (code now : String) :
    List Session × String × Nat :=
  let output := (execute_python_code (runOf (executed_source code))).text
  let score := grade output lab.expected_output
  (save_session df uid lab.lab_id code output (.int score) now, output, score)

/-- The Save Code Only action of `start_lab` (src/app.py:166-167): persist a
session with empty output and an empty (null) score, bypassing execution
and grading. -/
def save_only_action (df : List Session) (uid : Nat) (lab : Lab)
    (code now : String) : List Session :=
  save_session df uid lab.lab_id code "" .empty now

/-- A concrete user row (the seeded instructor, src/app.py:75-77, with a
fixed hash placeholder). -/
def sampleUser : User :=
  ⟨1, "Instructor", "instructor@gmail.com", "5e88", "instructor"⟩

/-- A concrete lab row (the seeded exercise, src/app.py:79-81). -/
def sampleLab : Lab :=
  ⟨1, "Basic Python", "Print statements and variables", "Hello World"⟩

/-- A concrete save-only session row: null score. -/
def saveOnlySession : Session :=
  ⟨1, 1, 1, "x = 1", "", none, "2026-10-12 09:00:00"⟩

/-- A concrete session row whose user and lab references resolve to no
existing user or lab. -/
def danglingSession : Session :=
  ⟨2, 99, 99, "print(0)", "0", some 0, "2026-10-12 10:00:00"⟩

end VirtualLab

namespace VirtualLab

/-- C1: for every pair of captured streams, the runner's result is chosen in
order: non-empty trimmed stdout is returned with outcome `Success`
(regardless of stderr); otherwise non-empty trimmed stderr is returned with
outcome `RuntimeError`; otherwise the sentinel `(No output)` is returned
with outcome `Success`. -/
theorem execute_select_policy (stdout stderr : String) :
    (pyStrip stdout ≠ "" →
      execute_python_code (.completed stdout stderr) =
        ⟨pyStrip stdout, .Success⟩) ∧
    (pyStrip stdout = "" → pyStrip stderr ≠ "" →
      execute_python_code (.completed stdout stderr) =
        ⟨pyStrip stderr, .RuntimeError⟩) ∧
    (pyStrip stdout = "" → pyStrip stderr = "" →
      execute_python_code (.completed stdout stderr) =
        ⟨no_output_message, .Success⟩) := by
  refine ⟨fun h => ?_, fun h1 h2 => ?_, fun h1 h2 => ?_⟩ <;>
    simp [execute_python_code, execute_select, *]

/-- Witness for `execute_select_policy`: each branch exercised on concrete
streams. -/
theorem execute_select_policy_witness :
    execute_python_code (.completed " hi \n" "boom") = ⟨"hi", .Success⟩ ∧
    execute_python_code (.completed "  " "boom") =
      ⟨"boom", .RuntimeError⟩ ∧
    execute_python_code (.completed "  " "\n") =
      ⟨"(No output)", .Success⟩ :=
  ⟨(execute_select_policy " hi \n" "boom").1 (by decide),
   (execute_select_policy "  " "boom").2.1 (by decide) (by decide),
   (execute_select_policy "  " "\n").2.2 (by decide) (by decide)⟩

/-- C2: for all string pairs, `grade` returns 100 exactly when the two
strings agree after stripping surrounding whitespace, and returns 0 in every
other case; it is a total function and its value is always 100 or 0. -/
theorem grade_exact_match (result_text expected_output : String) :
    (grade result_text expected_output = 100 ↔
      pyStrip result_text = pyStrip expected_output) ∧
    (grade result_text expected_output = 100 ∨
      grade result_text expected_output = 0) := by
  unfold grade
  by_cases h : pyStrip result_text = pyStrip expected_output <;> simp [h]

/-- Any element of a list is bounded by a `foldl max` over the list. -/
theorem le_foldl_max (l : List Nat) (a x : Nat) (hx : x ∈ l ∨ x ≤ a) :
    x ≤ l.foldl max a := by
  induction l generalizing a with
  | nil => simpa using hx.resolve_left (by simp)
  | cons y ys ih =>
    simp only [List.foldl_cons]
    rcases hx with hx | hx
    · rcases List.mem_cons.mp hx with rfl | hx
      · exact ih (max a x) (Or.inr (le_max_right a x))
      · exact ih (max a y) (Or.inl hx)
    · exact ih (max a y) (Or.inr (le_trans hx (le_max_left a y)))

/-- C3: `save_session` appends exactly one row whose identifier is
1 on an empty store and `max(existing) + 1` otherwise; the new identifier is
strictly larger than every existing identifier, so it is fresh, and a store
whose identifiers are strictly increasing stays strictly increasing. -/
theorem save_session_ids (df : List Session) (uid lid : Nat)
    (code output : String) (score : ScoreArg) (now : String) :
    (df = [] → (save_session df uid lid code output score now).map
        Session.session_id = [1]) ∧
    (df ≠ [] → next_session_id df = max_session_id df + 1) ∧
    (∀ s ∈ df, s.session_id < next_session_id df) ∧
    ((save_session df uid lid code output score now).map Session.session_id =
      df.map Session.session_id ++ [next_session_id df]) ∧
    (List.Pairwise (fun a b => a.session_id < b.session_id) df →
      List.Pairwise (fun a b => a.session_id < b.session_id)
        (save_session df uid lid code output score now)) := by
  have hlt : ∀ s ∈ df, s.session_id < next_session_id df := by
    intro s hs
    have hne : df.isEmpty = false := by
      cases df with
      | nil => cases hs
      | cons _ _ => rfl
    have hle : s.session_id ≤ max_session_id df :=
      le_foldl_max _ 0 _ (Or.inl (List.mem_map_of_mem Session.session_id hs))
    simp only [next_session_id, hne, Bool.false_eq_true, if_false]
    omega
  refine ⟨fun h => by subst h; rfl, fun h => ?_, hlt, by
    simp [save_session], fun hp => ?_⟩
  · have : ¬ df.isEmpty := by simpa [List.isEmpty_iff] using h
    simp [next_session_id, this]
  · unfold save_session
    rw [List.pairwise_append]
    exact ⟨hp, List.pairwise_singleton _ _, by
      intro a ha b hb
      simp only [List.mem_singleton] at hb
      subst hb
      exact hlt a ha⟩

/-- Witness for `save_session_ids`: on the empty store the appended session
gets identifier 1 and the strict-increase invariant is preserved. -/
theorem save_session_ids_witness :
    ((save_session [] 7 1 "print(1)" "1" (.int 100)
        "2026-10-12 09:00:00").map Session.session_id = [1]) ∧
    List.Pairwise (fun a b => a.session_id < b.session_id)
      (save_session [] 7 1 "print(1)" "1" (.int 100) "2026-10-12 09:00:00") :=
  ⟨(save_session_ids [] 7 1 "print(1)" "1" (.int 100)
      "2026-10-12 09:00:00").1 rfl,
   (save_session_ids [] 7 1 "print(1)" "1" (.int 100)
      "2026-10-12 09:00:00").2.2.2.2 (List.Pairwise.nil)⟩

/-- C4: on `subprocess.TimeoutExpired`, whatever partially captured text the
run produced, `execute_python_code` discards it and returns the timeout
sentinel with outcome `TimedOut`, as an ordinary returned value. -/
theorem execute_timeout_sentinel (pOut pErr : String) :
    execute_python_code (.timedOut pOut pErr) =
      ⟨timeout_message, .TimedOut⟩ ∧ default_timeout = 5 := by
  exact ⟨rfl, rfl⟩

/-- Descending insertion produces a permutation of the cons. -/
theorem insertDescBy_perm {α : Type} (key : α → String) (r : α)
    (l : List α) : List.Perm (insertDescBy key r l) (r :: l) := by
  induction l with
  | nil => exact List.Perm.refl _
  | cons x xs ih =>
    unfold insertDescBy
    by_cases h : key r < key x
    · simp only [if_pos h]
      exact (ih.cons x).trans (List.Perm.swap r x xs)
    · simp only [if_neg h]
      exact List.Perm.refl _

/-- The descending sort is a permutation of its input. -/
theorem sortDescBy_perm {α : Type} (key : α → String) (l : List α) :
    List.Perm (sortDescBy key l) l := by
  induction l with
  | nil => exact List.Perm.refl _
  | cons x xs ih => exact (insertDescBy_perm key x _).trans (ih.cons x)

/-- Descending insertion preserves the newest-first ordering. -/
theorem insertDescBy_sorted {α : Type} (key : α → String) (r : α)
    (l : List α) (hl : l.Pairwise (fun a b => key b ≤ key a)) :
    (insertDescBy key r l).Pairwise (fun a b => key b ≤ key a) := by
  induction l with
  | nil => simp [insertDescBy]
  | cons x xs ih =>
    rw [List.pairwise_cons] at hl
    obtain ⟨hx, hxs⟩ := hl
    unfold insertDescBy
    by_cases h : key r < key x
    · simp only [if_pos h]
      rw [List.pairwise_cons]
      refine ⟨?_, ih hxs⟩
      intro y hy
      rcases List.mem_cons.mp ((insertDescBy_perm key r xs).mem_iff.mp hy)
        with rfl | hy'
      · exact le_of_lt h
      · exact hx y hy'
    · simp only [if_neg h]
      rw [List.pairwise_cons]
      refine ⟨?_, List.pairwise_cons.mpr ⟨hx, hxs⟩⟩
      intro y hy
      rcases List.mem_cons.mp hy with rfl | hy'
      · exact le_of_not_lt h
      · exact le_trans (hx y hy') (le_of_not_lt h)

/-- The descending sort is ordered newest first. -/
theorem sortDescBy_sorted {α : Type} (key : α → String) (l : List α) :
    (sortDescBy key l).Pairwise (fun a b => key b ≤ key a) := by
  induction l with
  | nil => simp [sortDescBy]
  | cons x xs ih => exact insertDescBy_sorted key x _ ih

/-- A left-join step never yields an empty row list. -/
theorem leftMatches_ne_nil {α : Type} (p : α → Bool) (rows : List α) :
    leftMatches p rows ≠ [] := by
  unfold leftMatches
  cases h : rows.filter p with
  | nil => simp
  | cons y ys => simp

/-- Every merged row contributed by a session carries that session's
identifier, output, score and timestamp. -/
theorem rowsFor_fields (users : List User) (labs : List Lab) (s : Session)
    (r : JoinedRow) (hr : r ∈ rowsFor users labs s) :
    r.session_id = s.session_id ∧ r.output = s.output ∧
    r.score = s.score ∧ r.timestamp = s.timestamp := by
  unfold rowsFor at hr
  rw [List.mem_flatMap] at hr
  obtain ⟨u?, _, hr⟩ := hr
  rw [List.mem_map] at hr
  obtain ⟨l?, _, rfl⟩ := hr
  exact ⟨rfl, rfl, rfl, rfl⟩

/-- Every session contributes at least one merged row, and that row carries
its identifier and score. -/
theorem rowsFor_mem_exists (users : List User) (labs : List Lab)
    (s : Session) :
    ∃ r ∈ rowsFor users labs s,
      r.session_id = s.session_id ∧ r.score = s.score := by
  obtain ⟨u?, hu⟩ := List.exists_mem_of_ne_nil _
    (leftMatches_ne_nil (fun u => u.id == s.user_id) users)
  obtain ⟨l?, hl⟩ := List.exists_mem_of_ne_nil _
    (leftMatches_ne_nil (fun l => l.lab_id == s.lab_id) labs)
  refine ⟨⟨s.session_id, u?.map User.name, u?.map User.email,
    l?.map Lab.title, s.output, s.score, s.timestamp⟩, ?_, rfl, rfl⟩
  unfold rowsFor
  rw [List.mem_flatMap]
  exact ⟨u?, hu, List.mem_map.mpr ⟨l?, hl, rfl⟩⟩

/-- Every stored session appears in `merged_view` with its identifier and
score. -/
theorem merged_view_mem (users : List User) (labs : List Lab)
    (df : List Session) (s : Session) (hs : s ∈ df) :
    ∃ r ∈ merged_view users labs df,
      r.session_id = s.session_id ∧ r.score = s.score := by
  obtain ⟨r, hr, h1, h2⟩ := rowsFor_mem_exists users labs s
  exact ⟨r, List.mem_flatMap.mpr ⟨s, hs, hr⟩, h1, h2⟩

/-- The identifier test against `merged_view["session_id"]` is equivalent to
the identifier test against the stored session frame. -/
theorem merged_view_any_id (users : List User) (labs : List Lab)
    (df : List Session) (sid : Nat) :
    ((merged_view users labs df).any fun r => r.session_id == sid) = true ↔
      ∃ s ∈ df, s.session_id = sid := by
  rw [List.any_eq_true]
  constructor
  · rintro ⟨r, hr, hid⟩
    rw [beq_iff_eq] at hid
    rw [merged_view, List.mem_flatMap] at hr
    obtain ⟨s, hs, hr⟩ := hr
    refine ⟨s, hs, ?_⟩
    rw [← (rowsFor_fields users labs s r hr).1]
    exact hid
  · rintro ⟨s, hs, hid⟩
    obtain ⟨r, hr, h1, _⟩ := merged_view_mem users labs df s hs
    exact ⟨r, hr, by rw [beq_iff_eq, h1, hid]⟩

/-- C5: if no stored session carries the entered identifier, Update Score
warns and leaves the stored frame untouched; if one does, the operation
succeeds and rewrites exactly the score cell of the sessions carrying that
identifier, leaving every other cell of every session unchanged. -/
theorem update_score_point_update (users : List User) (labs : List Lab)
    (df : List Session) (sid ns : Nat) :
    ((∀ s ∈ df, s.session_id ≠ sid) →
      update_score users labs df sid ns = (df, false)) ∧
    ((∃ s ∈ df, s.session_id = sid) →
      (update_score users labs df sid ns).2 = true ∧
      (update_score users labs df sid ns).1 =
        df.map fun s => if s.session_id = sid
          then { s with score := some ns } else s) := by
  constructor
  · intro h
    have hc : ((merged_view users labs df).any
        fun r => r.session_id == sid) = false := by
      rw [Bool.eq_false_iff]
      intro hc
      obtain ⟨s, hs, hsid⟩ := (merged_view_any_id users labs df sid).mp hc
      exact h s hs hsid
    simp [update_score, hc]
  · intro h
    have hc := (merged_view_any_id users labs df sid).mpr h
    simp [update_score, hc]

/-- Witness for `update_score_point_update`: a miss on identifier 2 leaves
the one-session store untouched; a hit on identifier 1 rewrites only the
score cell. -/
theorem update_score_point_update_witness :
    update_score [sampleUser] [sampleLab] [saveOnlySession] 2 50 =
      ([saveOnlySession], false) ∧
    (update_score [sampleUser] [sampleLab] [saveOnlySession] 1 50).1 =
      [{ saveOnlySession with score := some 50 }] :=
  ⟨(update_score_point_update [sampleUser] [sampleLab]
      [saveOnlySession] 2 50).1 (by decide),
   ((update_score_point_update [sampleUser] [sampleLab]
      [saveOnlySession] 1 50).2
      ⟨saveOnlySession, List.mem_singleton.mpr rfl, rfl⟩).2.trans (by decide)⟩

/-- C6 counterexample: for the seeded user and lab and a store holding one
save-only session (null score), the instructor grading table does contain a
null-score row — `merged_view` applies no filter on the score column, so a
save-only session is not excluded from the aggregate-grading view. -/
theorem null_score_shown_to_instructor_cex :
    ¬ (∀ r ∈ grading_table [sampleUser] [sampleLab] [saveOnlySession],
        r.score ≠ none) := by
  decide

/-- C6 amended: a session with a null score is included in BOTH views: it
appears in the instructor grading table (with its identifier and a blank
score cell) and in the "my sessions" history of the user who created it. -/
theorem null_score_in_both_views (users : List User) (labs : List Lab)
    (df : List Session) (s : Session) (hs : s ∈ df)
    (hscore : s.score = none) :
    (∃ r ∈ grading_table users labs df,
      r.session_id = s.session_id ∧ r.score = none) ∧
    s ∈ my_sessions df s.user_id := by
  constructor
  · obtain ⟨r, hr, h1, h2⟩ := merged_view_mem users labs df s hs
    exact ⟨r, (sortDescBy_perm JoinedRow.timestamp _).mem_iff.mpr hr, h1,
      h2.trans hscore⟩
  · rw [my_sessions, (sortDescBy_perm Session.timestamp _).mem_iff,
      List.mem_filter]
    exact ⟨hs, by simp⟩

/-- Witness for `null_score_in_both_views`: the save-only session of the
one-session store shows up in the grading table with a blank score and in
its creator's history. -/
theorem null_score_in_both_views_witness :
    (∃ r ∈ grading_table [sampleUser] [sampleLab] [saveOnlySession],
      r.session_id = saveOnlySession.session_id ∧ r.score = none) ∧
    saveOnlySession ∈ my_sessions [saveOnlySession]
      saveOnlySession.user_id :=
  null_score_in_both_views [sampleUser] [sampleLab] [saveOnlySession]
    saveOnlySession (List.mem_singleton.mpr rfl) rfl

/-- A duplicate-free key column admits at most one match per key. -/
theorem filter_key_len_le_one {α : Type} (key : α → Nat) (l : List α)
    (hnd : (l.map key).Nodup) (k : Nat) :
    (l.filter fun x => key x == k).length ≤ 1 := by
  induction l with
  | nil => simp
  | cons x xs ih =>
    rw [List.map_cons, List.nodup_cons] at hnd
    obtain ⟨hx, hxs⟩ := hnd
    rw [List.filter_cons]
    by_cases h : (key x == k) = true
    · rw [if_pos h]
      have hnil : xs.filter (fun y => key y == k) = [] := by
        rw [List.filter_eq_nil_iff]
        intro y hy hyk
        rw [beq_iff_eq] at h hyk
        exact hx (List.mem_map.mpr ⟨y, hy, by rw [hyk, h]⟩)
      simp [hnil]
    · rw [if_neg h]
      exact ih hxs

/-- With a duplicate-free key column, a left-join step yields exactly one
row: the unique match, or the all-NaN row. -/
theorem leftMatches_key_singleton {α : Type} (key : α → Nat) (l : List α)
    (hnd : (l.map key).Nodup) (k : Nat) :
    ∃ a, leftMatches (fun x => key x == k) l = [a] := by
  have hlen := filter_key_len_le_one key l hnd k
  unfold leftMatches
  cases h : l.filter fun x => key x == k with
  | nil => exact ⟨none, rfl⟩
  | cons y ys =>
    rw [h] at hlen
    cases ys with
    | nil => exact ⟨some y, rfl⟩
    | cons z zs => simp at hlen

/-- With duplicate-free user and lab key columns, each session contributes
exactly one merged row, carrying its identifier. -/
theorem rowsFor_singleton (users : List User) (labs : List Lab)
    (s : Session) (hu : (users.map User.id).Nodup)
    (hl : (labs.map Lab.lab_id).Nodup) :
    ∃ r : JoinedRow, rowsFor users labs s = [r] ∧
      r.session_id = s.session_id := by
  obtain ⟨u?, hu1⟩ := leftMatches_key_singleton User.id users hu s.user_id
  obtain ⟨l?, hl1⟩ := leftMatches_key_singleton Lab.lab_id labs hl s.lab_id
  refine ⟨⟨s.session_id, u?.map User.name, u?.map User.email,
    l?.map Lab.title, s.output, s.score, s.timestamp⟩, ?_, rfl⟩
  unfold rowsFor
  rw [hu1, hl1]
  rfl

/-- With duplicate-free key columns, `merged_view` has one row per stored
session. -/
theorem merged_view_length (users : List User) (labs : List Lab)
    (df : List Session) (hu : (users.map User.id).Nodup)
    (hl : (labs.map Lab.lab_id).Nodup) :
    (merged_view users labs df).length = df.length := by
  induction df with
  | nil => rfl
  | cons s rest ih =>
    obtain ⟨r, hr, _⟩ := rowsFor_singleton users labs s hu hl
    rw [merged_view, List.flatMap_cons, List.length_append, hr]
    rw [merged_view] at ih
    rw [ih]
    simp only [List.length_cons, List.length_nil, List.length_singleton]
    omega

/-- C7: with duplicate-free user and lab key columns, the instructor review
table has exactly one row per stored session; every stored session appears
with its identifier, and a session whose user and lab references resolve to
nothing still appears, with blank name, email and title cells. -/
theorem joined_view_one_row_per_session (users : List User)
    (labs : List Lab) (df : List Session)
    (hu : (users.map User.id).Nodup) (hl : (labs.map Lab.lab_id).Nodup) :
    (grading_table users labs df).length = df.length ∧
    (∀ s ∈ df, ∃ r ∈ grading_table users labs df,
      r.session_id = s.session_id) ∧
    (∀ s ∈ df, users.filter (fun u => u.id == s.user_id) = [] →
      labs.filter (fun l => l.lab_id == s.lab_id) = [] →
      (⟨s.session_id, none, none, none, s.output, s.score, s.timestamp⟩ :
        JoinedRow) ∈ grading_table users labs df) := by
  refine ⟨?_, ?_, ?_⟩
  · exact ((sortDescBy_perm JoinedRow.timestamp _).length_eq).trans
      (merged_view_length users labs df hu hl)
  · intro s hs
    obtain ⟨r, hr, h1, _⟩ := merged_view_mem users labs df s hs
    exact ⟨r, (sortDescBy_perm JoinedRow.timestamp _).mem_iff.mpr hr, h1⟩
  · intro s hs hfu hfl
    have hrow : rowsFor users labs s =
        [⟨s.session_id, none, none, none, s.output, s.score, s.timestamp⟩] := by
      unfold rowsFor leftMatches
      rw [hfu, hfl]
      rfl
    refine (sortDescBy_perm JoinedRow.timestamp _).mem_iff.mpr ?_
    rw [merged_view, List.mem_flatMap]
    exact ⟨s, hs, by rw [hrow]; exact List.mem_singleton.mpr rfl⟩

/-- Witness for `joined_view_one_row_per_session`: a store holding one
session whose user and lab ids (99) resolve to nothing still yields a
one-row table containing the blank-joined row. -/
theorem joined_view_one_row_per_session_witness :
    (grading_table [sampleUser] [sampleLab] [danglingSession]).length = 1 ∧
    (⟨danglingSession.session_id, none, none, none, danglingSession.output,
      danglingSession.score, danglingSession.timestamp⟩ : JoinedRow) ∈
      grading_table [sampleUser] [sampleLab] [danglingSession] :=
  ⟨(joined_view_one_row_per_session [sampleUser] [sampleLab]
      [danglingSession] (by decide) (by decide)).1,
   (joined_view_one_row_per_session [sampleUser] [sampleLab]
      [danglingSession] (by decide) (by decide)).2.2 danglingSession
      (List.mem_singleton.mpr rfl) (by decide) (by decide)⟩

/-- C8: both displayed listings — a user's session history and the
instructor review table — are ordered by timestamp, newest first (pairwise
non-increasing). -/
theorem views_sorted_newest_first (users : List User) (labs : List Lab)
    (df : List Session) (uid : Nat) :
    (my_sessions df uid).Pairwise
      (fun a b => b.timestamp ≤ a.timestamp) ∧
    (grading_table users labs df).Pairwise
      (fun a b => b.timestamp ≤ a.timestamp) :=
  ⟨sortDescBy_sorted Session.timestamp _,
   sortDescBy_sorted JoinedRow.timestamp _⟩

/-- C9: the call always returns a value — removal failure in the `finally`
block is swallowed and the timeout exception is converted to data — and
whenever the attempted removal succeeds the temporary file is gone on every
exit path (success, runtime error, timeout). -/
theorem temp_file_cleanup (run : RunResult) :
    (∀ rm, execute_python_code_full run rm =
      .ok (execute_python_code run, cleanup rm)) ∧
    execute_python_code_full run .ok =
      .ok (execute_python_code run, true) ∧
    execute_python_code_full run .fails =
      .ok (execute_python_code run, false) := by
  refine ⟨fun rm => ?_, ?_, ?_⟩ <;> cases run <;> (try cases rm) <;> rfl

/-- C10: the Run Code path persists the original submission text verbatim,
while the child interpreter receives the `textwrap.dedent`-ed text; on a
uniformly indented submission the two differ. -/
theorem dedent_executed_original_stored (runOf : String → RunResult)
    (df : List Session) (uid : Nat) (lab : Lab) (code now : String) :
    (run_code_action runOf df uid lab code now).1 =
      df ++ [⟨next_session_id df, uid, lab.lab_id, code,
              (execute_python_code (runOf (dedent code))).text,
              some (grade (execute_python_code (runOf (dedent code))).text
                lab.expected_output), now⟩] ∧
    dedent "    print(1)\n    print(2)" = "print(1)\nprint(2)" ∧
    dedent "    print(1)\n    print(2)" ≠ "    print(1)\n    print(2)" :=
  ⟨rfl, by decide, by decide⟩

end VirtualLab
